import Mathlib

/-!
Verification of the falling-sand simulation engine (src/src/main.rs).

The embedding models, directly from the source:
  - `Grid` (main.rs:20-24): a dense row-major list of optional materials plus
    its dimensions;
  - `Grid.new` (main.rs:27-38): width*height cells, all empty;
  - the `Index`/`IndexMut` impls (main.rs:74-90): flat index
    `point.y as usize * self.width + point.x as usize`, followed by the `Vec`
    bounds check.  `Grid.get?`/`Grid.set?` return `none` where the Rust code
    would panic on an out-of-range flat index.  Integer casts are modelled
    explicitly: `usizeOfInt` is the `as usize` cast of an `i32` value and
    `i32cast` is the `as i32` cast of a `usize` value, both with the wrapping
    (release-profile) semantics; all theorems below carry hypotheses keeping
    the values far away from the wrap-around points, where debug and release
    profiles agree;
  - `Sand::update` (main.rs:96-113, the `Material::update` method of the only
    material): `Sand.update`;
  - `Grid::update` (main.rs:40-54): `Grid.update`, with the
    `for (idx, cell) in self.data.iter().enumerate()` loop rendered as the
    structural recursion `Grid.updateLoop` over the cell list carrying the
    running index.
-/

/-- The `as usize` cast of a signed value (wrapping semantics). -/
def usizeOfInt (i : Int) : Nat := (i % (2 ^ 64 : Int)).toNat

/-- The `as i32` cast of a `usize` value (wrapping semantics). -/
def i32cast (n : Nat) : Int :=
  if n % 2 ^ 32 < 2 ^ 31 then ((n % 2 ^ 32 : Nat) : Int)
  else ((n % 2 ^ 32 : Nat) : Int) - 2 ^ 32

/-- The materials of the simulation.  The source defines exactly one,
`Sand` (main.rs:92-93); material values are stateless. -/
inductive Material where
  | sand
deriving DecidableEq

/-- `sdl2::rect::Point`: a pair of `i32` coordinates. -/
structure Point where
  x : Int
  y : Int
deriving DecidableEq

/-- `Grid` (main.rs:20-24): `data` is the row-major cell vector, a cell is
`Option Material` (`Option<Box<Material>>` in the source; the box only
provides ownership, not state). -/
structure Grid where
  data : List (Option Material)
  width : Nat
  height : Nat
deriving DecidableEq

/-- `Grid::new` (main.rs:27-38): pushes `None` `width * height` times. -/
def Grid.new (width height : Nat) : Grid :=
  { data := List.replicate (width * height) none, width := width, height := height }

/-- The flat index computed by the `Index`/`IndexMut` impls (main.rs:78,86):
`point.y as usize * self.width + point.x as usize`, with wrapping `usize`
arithmetic. -/
def Grid.flatIdx (g : Grid) (point : Point) : Nat :=
  (usizeOfInt point.y * g.width + usizeOfInt point.x) % 2 ^ 64

/-- Reading a cell through `Index<Point>` (main.rs:74-82): `none` models the
`Vec` bounds-check panic on an out-of-range flat index. -/
def Grid.get? (g : Grid) (point : Point) : Option (Option Material) :=
  g.data.get? (g.flatIdx point)

/-- Writing a cell through `IndexMut<Point>` (main.rs:84-90): `none` models
the `Vec` bounds-check panic on an out-of-range flat index. -/
def Grid.set? (g : Grid) (point : Point) (cell : Option Material) : Option Grid :=
  if g.flatIdx point < g.data.length then
    some { g with data := g.data.set (g.flatIdx point) cell }
  else none

/-- Total convenience view of `Index<Point>` used at the call sites that are
proved in-bounds (`grid[down]`, `self[position]`): out of range it yields
`none` where the source would panic; every use below is at an in-range index,
where the two agree. -/
def Grid.read (g : Grid) (point : Point) : Option Material :=
  (g.get? point).getD none

/-- Total convenience view of `IndexMut<Point>` used at the proved-in-bounds
call site `new_grid[new_position] = ...`: out of range it leaves the grid
unchanged where the source would panic; every use below is at an in-range
index, where the two agree. -/
def Grid.write (g : Grid) (point : Point) (cell : Option Material) : Grid :=
  (g.set? point cell).getD g

/-- The cell at flat index `i` (empty when out of range). -/
def Grid.cellAt (g : Grid) (i : Nat) : Option Material :=
  (g.data.get? i).getD none

/-- `Sand`'s `Material::update` (main.rs:96-113), verbatim: the three early
returns on the candidate bounds come before any occupancy test. -/
def Sand.update (grid : Grid) (position : Point) : Point :=
  let down : Point := ⟨position.x, position.y + 1⟩
  if down.y ≥ i32cast grid.height then position
  else
    let down_left : Point := ⟨position.x - 1, position.y + 1⟩
    if down_left.x < 0 then position
    else
      let down_right : Point := ⟨position.x + 1, position.y + 1⟩
      if down_right.x ≥ i32cast grid.width then position
      else
        if (grid.read down).isNone then down
        else if (grid.read down_left).isNone then down_left
        else if (grid.read down_right).isNone then down_right
        else position

/-- Dynamic dispatch of `Material::update` (main.rs:120-124): the only
variant is `Sand`. -/
def Material.update (m : Material) (grid : Grid) (position : Point) : Point :=
  match m with
  | .sand => Sand.update grid position

/-- The position of flat index `idx` as computed inside `Grid::update`
(main.rs:45-48): `x = (idx % width) as i32`, `y = (idx / width) as i32`. -/
def srcPoint (width : Nat) (idx : Nat) : Point :=
  ⟨i32cast (idx % width), i32cast (idx / width)⟩

/-- The `for (idx, cell) in self.data.iter().enumerate()` loop of
`Grid::update` (main.rs:43-52): `g` is the immutable pre-tick grid (`self`),
`idx` the running enumeration index, `new_grid` the successor being built.
An occupied cell writes `self[position].clone()` into the successor at the
position chosen by the material. -/
def Grid.updateLoop (g : Grid) (idx : Nat) (cells : List (Option Material)) (new_grid : Grid) :
    Grid :=
  match cells with
  | [] => new_grid
  | cell :: rest =>
    match cell with
    | some material =>
      let position := srcPoint g.width idx
      let new_position := material.update g position
      g.updateLoop (idx + 1) rest (new_grid.write new_position (g.read position))
    | none => g.updateLoop (idx + 1) rest new_grid

/-- `Grid::update` (main.rs:40-54): build a fresh empty grid of the same
dimensions, scan the pre-tick cells in ascending flat order, commit each
occupied cell's decision, and replace the live grid by the successor. -/
def Grid.update (g : Grid) : Grid :=
  g.updateLoop 0 g.data (Grid.new g.width g.height)

/-! ## Specification-side definitions

These follow the words of the specification (not the source); they exist to
be compared against the source-derived definitions above. -/

/-- A candidate move is available, in the words of the specification of the
`Sand` movement rule: the candidate cell lies inside the grid (none of
y ≥ height, x < 0, x ≥ width holds) and is empty in the pre-tick grid. -/
def candAvailable (g : Grid) (q : Point) : Bool :=
  !(q.y ≥ (g.height : Int) : Bool) && !(q.x < 0 : Bool) && !(q.x ≥ (g.width : Int) : Bool)
    && (g.read q).isNone

/-- The `Sand` movement rule exactly as the specification words it: strict
priority order down, down-left, down-right, stay, where an out-of-bounds
candidate merely falls through to the next rule. -/
def sandClaimRule (g : Grid) (p : Point) : Point :=
  let down : Point := ⟨p.x, p.y + 1⟩
  let down_left : Point := ⟨p.x - 1, p.y + 1⟩
  let down_right : Point := ⟨p.x + 1, p.y + 1⟩
  if candAvailable g down then down
  else if candAvailable g down_left then down_left
  else if candAvailable g down_right then down_right
  else p

/-- The amended `Sand` movement rule: the particle stays in place as soon as
any of the three candidate cells is out of bounds (bottom row, or the left or
right edge column); only when all three candidates are in bounds is the
priority chain down / down-left / down-right / stay evaluated against the
pre-tick grid. -/
def sandGuardedRule (g : Grid) (p : Point) : Point :=
  let down : Point := ⟨p.x, p.y + 1⟩
  let down_left : Point := ⟨p.x - 1, p.y + 1⟩
  let down_right : Point := ⟨p.x + 1, p.y + 1⟩
  if p.y + 1 ≥ (g.height : Int) ∨ p.x - 1 < 0 ∨ p.x + 1 ≥ (g.width : Int) then p
  else if (g.read down).isNone then down
  else if (g.read down_left).isNone then down_left
  else if (g.read down_right).isNone then down_right
  else p

/-- The tick algorithm as the specification words it (two-phase update):
scan the current grid's cells ascending; each occupied cell's occupant is
copied into the successor at the destination chosen by its decision function
from the immutable pre-tick grid. -/
def Grid.updateSpecLoop (g : Grid) (idx : Nat) (cells : List (Option Material))
    (successor : Grid) : Grid :=
  match cells with
  | [] => successor
  | cell :: rest =>
    match cell with
    | some occupant =>
      g.updateSpecLoop (idx + 1) rest
        (successor.write (occupant.update g (srcPoint g.width idx)) (some occupant))
    | none => g.updateSpecLoop (idx + 1) rest successor

/-- The tick algorithm as the specification words it: allocate a fresh,
fully-empty successor of identical dimensions, scan every cell of the current
grid in ascending flat-index order, copy each occupant to its decided
destination (later writes overwrite earlier ones), and hand back the
successor. -/
def Grid.updateSpec (g : Grid) : Grid :=
  g.updateSpecLoop 0 g.data (Grid.new g.width g.height)

/-! ## Derived observations used by the theorems -/

/-- Number of occupied cells. -/
def Grid.occCount (g : Grid) : Nat :=
  g.data.countP (fun c => c.isSome)

/-- The destination flat index of the occupant of flat index `k` (if any):
where `Grid::update` will write the occupant of cell `k`. -/
def Grid.destOf (g : Grid) (k : Nat) : Option Nat :=
  (g.cellAt k).map (fun m => g.flatIdx (m.update g (srcPoint g.width k)))

/-- Two distinct occupied source cells compute the same destination in the
tick. -/
def Grid.collision (g : Grid) : Prop :=
  ∃ i j, i ≠ j ∧ ∃ d, g.destOf i = some d ∧ g.destOf j = some d

/-- A cell below an occupied one counts as blocked when it is out of bounds
or occupied (the specification's description of a settled neighbourhood). -/
def belowBlocked (g : Grid) (q : Point) : Prop :=
  q.y ≥ (g.height : Int) ∨ q.x < 0 ∨ q.x ≥ (g.width : Int) ∨ (g.read q).isSome

/-- A fully settled grid: every occupied cell's directly-below, below-left
and below-right neighbours are each occupied or out of bounds. -/
def Grid.settled (g : Grid) : Prop :=
  ∀ i < g.data.length, (g.cellAt i).isSome →
    belowBlocked g ⟨(srcPoint g.width i).x, (srcPoint g.width i).y + 1⟩ ∧
    belowBlocked g ⟨(srcPoint g.width i).x - 1, (srcPoint g.width i).y + 1⟩ ∧
    belowBlocked g ⟨(srcPoint g.width i).x + 1, (srcPoint g.width i).y + 1⟩

instance (g : Grid) (q : Point) : Decidable (belowBlocked g q) := by
  unfold belowBlocked; infer_instance

instance (g : Grid) : Decidable (g.settled) := by
  unfold Grid.settled; infer_instance

/-! ## Concrete grids for counterexamples and witnesses -/

/-- A one-column grid (width 1, height 2) holding a single sand particle at
the top: the particle sits in both the left and the right edge column. -/
def edgeGrid : Grid :=
  { data := [some Material.sand, none], width := 1, height := 2 }

/-- A 2 x 2 grid whose only occupant is the cell at (0, 1), which is flat
index 2 — the flat index that the point (2, 0) aliases. -/
def aliasGrid : Grid :=
  { data := [none, none, some Material.sand, none], width := 2, height := 2 }

/-- A 1 x 1 grid holding one sand particle: settled, bottom row. -/
def oneCell : Grid :=
  { data := [some Material.sand], width := 1, height := 1 }

/-- A 3 x 2 grid with one sand particle at (1, 0): the particle is away from
both edge columns and has an empty cell below. -/
def dropGrid : Grid :=
  { data := [none, some Material.sand, none, none, none, none], width := 3, height := 2 }

/-- A 4 x 2 grid with sand at (1,0), (2,0) and (2,1): the particle at (1,0)
falls straight down to (1,1) while the particle at (2,0), blocked below by
(2,1), slides down-left to the same cell (1,1) — a same-destination
collision. -/
def collideGrid : Grid :=
  { data := [none, some Material.sand, some Material.sand, none,
             none, none, some Material.sand, none], width := 4, height := 2 }

/-! ## Proof infrastructure: the tick as a list of flat-index writes -/

/-- Apply a list of (flat index, value) writes to a cell list, left to
right. -/
def applyW (L : List (Nat × Option Material)) (d : List (Option Material)) :
    List (Option Material) :=
  L.foldl (fun dd iv => dd.set iv.1 iv.2) d

/-- The writes `Grid::update` performs while scanning `cells` with running
index `idx`, in scan order: one write per occupied cell, targeting the flat
index of the destination its material chooses from the pre-tick grid `g`. -/
def gridWrites (g : Grid) (idx : Nat) (cells : List (Option Material)) :
    List (Nat × Option Material) :=
  match cells with
  | [] => []
  | none :: rest => gridWrites g (idx + 1) rest
  | some material :: rest =>
    (g.flatIdx (material.update g (srcPoint g.width idx)), g.read (srcPoint g.width idx))
      :: gridWrites g (idx + 1) rest

/-- The value a write list leaves at index `j`, starting from `dflt`: the
value of the last write targeting `j`, else `dflt`. -/
def lastVal (L : List (Nat × Option Material)) (j : Nat) (dflt : Option Material) :
    Option Material :=
  match L with
  | [] => dflt
  | iv :: rest => lastVal rest j (if iv.1 = j then iv.2 else dflt)

/-! ## Cast lemmas -/

lemma i32cast_eq {n : Nat} (h : n < 2 ^ 31) : i32cast n = (n : Int) := by
  unfold i32cast
  rw [Nat.mod_eq_of_lt (lt_trans h (by norm_num)), if_pos h]

lemma usizeOfInt_ofNat {n : Nat} (h : n < 2 ^ 64) : usizeOfInt (n : Int) = n := by
  unfold usizeOfInt
  rw [Int.emod_eq_of_lt (by positivity) (by exact_mod_cast h)]
  exact Int.toNat_natCast n

lemma usizeOfInt_toNat {x : Int} (h0 : 0 ≤ x) (h : x < 2 ^ 64) : usizeOfInt x = x.toNat := by
  unfold usizeOfInt
  rw [Int.emod_eq_of_lt h0 h]

/-! ## Elementary facts about the grid operations -/

lemma Grid.write_eq (g : Grid) (p : Point) (c : Option Material) :
    g.write p c = { g with data := g.data.set (g.flatIdx p) c } := by
  unfold Grid.write Grid.set?
  by_cases h : g.flatIdx p < g.data.length
  · simp [h]
  · simp [h, List.set_eq_of_length_le (Nat.le_of_not_lt h)]

lemma flatIdx_width_congr {g₁ g₂ : Grid} (h : g₁.width = g₂.width) (p : Point) :
    g₁.flatIdx p = g₂.flatIdx p := by
  unfold Grid.flatIdx
  rw [h]

lemma Grid.new_width (w h : Nat) : (Grid.new w h).width = w := rfl

lemma Grid.new_length (w h : Nat) : (Grid.new w h).data.length = w * h := by
  simp [Grid.new]

/-! ## The update loop as a write list -/

lemma applyW_nil (d : List (Option Material)) : applyW [] d = d := rfl

lemma applyW_cons (iv : Nat × Option Material) (L : List (Nat × Option Material))
    (d : List (Option Material)) : applyW (iv :: L) d = applyW L (d.set iv.1 iv.2) := rfl

lemma applyW_length (L : List (Nat × Option Material)) :
    ∀ d : List (Option Material), (applyW L d).length = d.length := by
  induction L with
  | nil => intro d; rfl
  | cons iv rest ih =>
    intro d
    rw [applyW_cons, ih, List.length_set]

lemma applyW_get? (L : List (Nat × Option Material)) :
    ∀ (d : List (Option Material)) (j : Nat), j < d.length →
      (applyW L d).get? j = some (lastVal L j ((d.get? j).getD none)) := by
  induction L with
  | nil =>
    intro d j hj
    rw [applyW_nil, List.get?_eq_get hj]
    rfl
  | cons iv rest ih =>
    intro d j hj
    rw [applyW_cons, ih _ j (by rw [List.length_set]; exact hj)]
    show _ = some (lastVal rest j (if iv.1 = j then iv.2 else (d.get? j).getD none))
    congr 2
    by_cases h : iv.1 = j
    · subst h
      rw [List.get?_set_eq_of_lt _ hj]
      simp
    · rw [List.get?_set_ne _ _ h]
      simp [h]

lemma updateLoop_eq (g : Grid) (l : List (Option Material)) :
    ∀ (idx : Nat) (acc : Grid), acc.width = g.width →
      g.updateLoop idx l acc = { acc with data := applyW (gridWrites g idx l) acc.data } := by
  induction l with
  | nil => intro idx acc _; rfl
  | cons c rest ih =>
    intro idx acc hw
    cases c with
    | none => exact ih (idx + 1) acc hw
    | some m =>
      show g.updateLoop (idx + 1) rest
          (acc.write (m.update g (srcPoint g.width idx)) (g.read (srcPoint g.width idx))) = _
      rw [ih (idx + 1) _ (by rw [Grid.write_eq]; exact hw)]
      rw [Grid.write_eq, flatIdx_width_congr hw]
      rfl

lemma update_eq (g : Grid) :
    g.update = { data := applyW (gridWrites g 0 g.data) (List.replicate (g.width * g.height) none),
                 width := g.width, height := g.height } := by
  unfold Grid.update
  rw [updateLoop_eq g g.data 0 (Grid.new g.width g.height) rfl]
  rfl

/-! ## Facts about `lastVal` -/

lemma lastVal_of_no_hit (j : Nat) :
    ∀ (L : List (Nat × Option Material)) (dflt : Option Material),
      (∀ iv ∈ L, iv.1 ≠ j) → lastVal L j dflt = dflt := by
  intro L
  induction L with
  | nil => intro dflt _; rfl
  | cons iv rest ih =>
    intro dflt hno
    show lastVal rest j (if iv.1 = j then iv.2 else dflt) = dflt
    rw [if_neg (hno iv (List.mem_cons_self iv rest))]
    exact ih dflt (fun x hx => hno x (List.mem_cons_of_mem iv hx))

lemma lastVal_of_hits (j : Nat) (v : Option Material) :
    ∀ (L : List (Nat × Option Material)) (dflt : Option Material),
      (∀ iv ∈ L, iv.1 = j → iv.2 = v) → (∃ iv ∈ L, iv.1 = j) →
      lastVal L j dflt = v := by
  intro L
  induction L with
  | nil => rintro dflt _ ⟨iv, hmem, _⟩; exact absurd hmem (List.not_mem_nil iv)
  | cons iv rest ih =>
    intro dflt hval hex
    show lastVal rest j (if iv.1 = j then iv.2 else dflt) = v
    by_cases hrest : ∃ x ∈ rest, x.1 = j
    · exact ih _ (fun x hx => hval x (List.mem_cons_of_mem iv hx)) hrest
    · have hhead : iv.1 = j := by
        obtain ⟨x, hmem, hx⟩ := hex
        rcases List.mem_cons.mp hmem with h | h
        · rw [← h]; exact hx
        · exact absurd ⟨x, h, hx⟩ hrest
      rw [if_pos hhead, hval iv (List.mem_cons_self iv rest) hhead]
      exact lastVal_of_no_hit j rest v (fun x hx hxj => hrest ⟨x, hx, hxj⟩)

lemma lastVal_isSome_iff (j : Nat) :
    ∀ (L : List (Nat × Option Material)) (dflt : Option Material),
      (∀ iv ∈ L, iv.2.isSome) →
      ((lastVal L j dflt).isSome ↔ dflt.isSome ∨ ∃ iv ∈ L, iv.1 = j) := by
  intro L
  induction L with
  | nil =>
    intro dflt _
    simp [lastVal]
  | cons iv rest ih =>
    intro dflt hsome
    show (lastVal rest j (if iv.1 = j then iv.2 else dflt)).isSome ↔ _
    rw [ih _ (fun x hx => hsome x (List.mem_cons_of_mem iv hx))]
    by_cases h : iv.1 = j
    · rw [if_pos h]
      have hs := hsome iv (List.mem_cons_self iv rest)
      constructor
      · intro _; exact Or.inr ⟨iv, List.mem_cons_self iv rest, h⟩
      · intro _; exact Or.inl hs
    · simp only [if_neg h]
      constructor
      · rintro (hd | ⟨x, hx, hxj⟩)
        · exact Or.inl hd
        · exact Or.inr ⟨x, List.mem_cons_of_mem iv hx, hxj⟩
      · rintro (hd | ⟨x, hx, hxj⟩)
        · exact Or.inl hd
        · rcases List.mem_cons.mp hx with h1 | h1
          · exact absurd (h1 ▸ hxj) h
          · exact Or.inr ⟨x, h1, hxj⟩

/-! ## Index arithmetic -/

lemma flatIdx_srcPoint (g : Grid) (i : Nat) (hw : g.width < 2 ^ 31) (hh : g.height < 2 ^ 31)
    (hi : i < g.width * g.height) : g.flatIdx (srcPoint g.width i) = i := by
  have hw0 : 0 < g.width := by
    rcases Nat.eq_zero_or_pos g.width with h | h
    · rw [h] at hi; simp at hi
    · exact h
  have h1 : i % g.width < g.width := Nat.mod_lt _ hw0
  have h2 : i / g.width < g.height := by
    rw [Nat.div_lt_iff_lt_mul hw0]
    rw [mul_comm] at hi
    exact hi
  have hi64 : i < 2 ^ 64 := by
    calc i < g.width * g.height := hi
    _ < 2 ^ 31 * 2 ^ 31 := Nat.mul_lt_mul_of_lt_of_lt hw hh
    _ < 2 ^ 64 := by norm_num
  unfold Grid.flatIdx srcPoint
  rw [i32cast_eq (lt_trans h1 hw), i32cast_eq (lt_trans h2 hh)]
  rw [usizeOfInt_ofNat (lt_trans h1 (lt_trans hw (by norm_num))),
    usizeOfInt_ofNat (lt_trans h2 (lt_trans hh (by norm_num)))]
  have key : i / g.width * g.width + i % g.width = i := by
    rw [mul_comm]
    exact Nat.div_add_mod i g.width
  rw [key, Nat.mod_eq_of_lt hi64]

lemma flatIdx_point (g : Grid) (p : Point) (hw : g.width < 2 ^ 31) (hh : g.height < 2 ^ 31)
    (hx0 : 0 ≤ p.x) (hx1 : p.x < (g.width : Int)) (hy0 : 0 ≤ p.y) (hy1 : p.y < (g.height : Int)) :
    g.flatIdx p = p.y.toNat * g.width + p.x.toNat ∧
      p.y.toNat * g.width + p.x.toNat < g.width * g.height := by
  have hxn : p.x.toNat < g.width := by omega
  have hyn : p.y.toNat < g.height := by omega
  have hbound : p.y.toNat * g.width + p.x.toNat < g.width * g.height := by
    calc p.y.toNat * g.width + p.x.toNat < p.y.toNat * g.width + g.width := by omega
    _ = (p.y.toNat + 1) * g.width := by ring
    _ ≤ g.height * g.width := Nat.mul_le_mul_right _ (by omega)
    _ = g.width * g.height := mul_comm _ _
  refine ⟨?_, hbound⟩
  have h64 : p.y.toNat * g.width + p.x.toNat < 2 ^ 64 := by
    calc p.y.toNat * g.width + p.x.toNat < g.width * g.height := hbound
    _ < 2 ^ 31 * 2 ^ 31 := Nat.mul_lt_mul_of_lt_of_lt hw hh
    _ < 2 ^ 64 := by norm_num
  unfold Grid.flatIdx
  rw [usizeOfInt_toNat hx0 (by omega), usizeOfInt_toNat hy0 (by omega)]
  exact Nat.mod_eq_of_lt h64

/-! ## Behaviour of the sand rule -/

lemma sand_update_in_bounds (g : Grid) (p : Point) (hw : g.width < 2 ^ 31)
    (hh : g.height < 2 ^ 31) (hx0 : 0 ≤ p.x) (hx1 : p.x < (g.width : Int)) (hy0 : 0 ≤ p.y)
    (hy1 : p.y < (g.height : Int)) :
    0 ≤ (Sand.update g p).x ∧ (Sand.update g p).x < (g.width : Int) ∧
      0 ≤ (Sand.update g p).y ∧ (Sand.update g p).y < (g.height : Int) := by
  simp only [Sand.update, i32cast_eq hw, i32cast_eq hh]
  split_ifs <;> simp_all <;> omega

lemma sand_update_stay_or_empty (g : Grid) (p : Point) :
    Sand.update g p = p ∨ g.read (Sand.update g p) = none := by
  simp only [Sand.update]
  split_ifs with h1 h2 h3 h4 h5 h6
  · exact Or.inl rfl
  · exact Or.inl rfl
  · exact Or.inl rfl
  · exact Or.inr (Option.isNone_iff_eq_none.mp h4)
  · exact Or.inr (Option.isNone_iff_eq_none.mp h5)
  · exact Or.inr (Option.isNone_iff_eq_none.mp h6)
  · exact Or.inl rfl

lemma sand_update_of_blocked (g : Grid) (p : Point) (hw : g.width < 2 ^ 31)
    (hh : g.height < 2 ^ 31)
    (b1 : belowBlocked g ⟨p.x, p.y + 1⟩) (b2 : belowBlocked g ⟨p.x - 1, p.y + 1⟩)
    (b3 : belowBlocked g ⟨p.x + 1, p.y + 1⟩) : Sand.update g p = p := by
  simp only [belowBlocked] at b1 b2 b3
  simp only [Sand.update, i32cast_eq hw, i32cast_eq hh]
  split_ifs with h1 h2 h3 h4 h5 h6
  · rfl
  · rfl
  · rfl
  · exfalso
    rcases b1 with hb | hb | hb | hb
    · exact h1 hb
    · omega
    · omega
    · rw [Option.isSome_iff_ne_none] at hb
      exact hb (Option.isNone_iff_eq_none.mp h4)
  · exfalso
    rcases b2 with hb | hb | hb | hb
    · exact h1 hb
    · exact h2 hb
    · omega
    · rw [Option.isSome_iff_ne_none] at hb
      exact hb (Option.isNone_iff_eq_none.mp h5)
  · exfalso
    rcases b3 with hb | hb | hb | hb
    · exact h1 hb
    · omega
    · exact h3 hb
    · rw [Option.isSome_iff_ne_none] at hb
      exact hb (Option.isNone_iff_eq_none.mp h6)
  · rfl

/-! ## The master characterisation of one tick -/

lemma update_width (g : Grid) : (g.update).width = g.width := by
  rw [update_eq]

lemma update_height (g : Grid) : (g.update).height = g.height := by
  rw [update_eq]

lemma update_data_length (g : Grid) : (g.update).data.length = g.width * g.height := by
  rw [update_eq]
  show (applyW _ _).length = _
  rw [applyW_length, List.length_replicate]

/-- One tick, observed cell by cell: starting from the fully empty successor,
the value of cell `j` after `update` is the value of the last write in scan
order that targets `j`, and empty if no write targets it. -/
lemma update_get? (g : Grid) (j : Nat) (hj : j < g.width * g.height) :
    (g.update).data.get? j = some (lastVal (gridWrites g 0 g.data) j none) := by
  rw [update_eq]
  show (applyW (gridWrites g 0 g.data) (List.replicate (g.width * g.height) none)).get? j = _
  rw [applyW_get? _ _ j (by rw [List.length_replicate]; exact hj)]
  have : (List.replicate (g.width * g.height) (none : Option Material)).get? j = some none := by
    rw [List.get?_eq_getElem?]
    exact List.getElem?_replicate_of_lt hj
  rw [this]
  rfl

lemma gridWrites_length (g : Grid) :
    ∀ (l : List (Option Material)) (idx : Nat),
      (gridWrites g idx l).length = l.countP (fun c => c.isSome) := by
  intro l
  induction l with
  | nil => intro idx; rfl
  | cons c rest ih =>
    intro idx
    cases c with
    | none => rw [List.countP_cons]; simp [gridWrites, ih (idx + 1)]
    | some m => rw [List.countP_cons]; simp [gridWrites, ih (idx + 1)]

/-- Membership in the write list: exactly one write per occupied source
cell, targeting its material's decision and carrying the source occupant. -/
lemma gridWrites_mem (g : Grid) :
    ∀ (l : List (Option Material)) (idx : Nat) (iv : Nat × Option Material),
      iv ∈ gridWrites g idx l ↔
        ∃ k m, l.get? k = some (some m) ∧
          iv = (g.flatIdx (m.update g (srcPoint g.width (idx + k))),
                g.read (srcPoint g.width (idx + k))) := by
  intro l
  induction l with
  | nil =>
    intro idx iv
    constructor
    · intro h; exact absurd h (List.not_mem_nil iv)
    · rintro ⟨k, m, hk, _⟩; simp at hk
  | cons c rest ih =>
    intro idx iv
    cases c with
    | none =>
      show iv ∈ gridWrites g (idx + 1) rest ↔ _
      rw [ih (idx + 1)]
      constructor
      · rintro ⟨k, m, hk, hiv⟩
        refine ⟨k + 1, m, by simpa using hk, ?_⟩
        have harith : idx + (k + 1) = idx + 1 + k := by omega
        rw [harith]
        exact hiv
      · rintro ⟨k, m, hk, hiv⟩
        cases k with
        | zero => simp at hk
        | succ k =>
          refine ⟨k, m, by simpa using hk, ?_⟩
          have harith : idx + 1 + k = idx + (k + 1) := by omega
          rw [harith]
          exact hiv
    | some m0 =>
      rw [show gridWrites g idx (some m0 :: rest)
          = (g.flatIdx (m0.update g (srcPoint g.width idx)), g.read (srcPoint g.width idx))
            :: gridWrites g (idx + 1) rest from rfl, List.mem_cons, ih (idx + 1)]
      constructor
      · rintro (hiv | ⟨k, m, hk, hiv⟩)
        · exact ⟨0, m0, rfl, by rw [Nat.add_zero]; exact hiv⟩
        · refine ⟨k + 1, m, by simpa using hk, ?_⟩
          have harith : idx + (k + 1) = idx + 1 + k := by omega
          rw [harith]
          exact hiv
      · rintro ⟨k, m, hk, hiv⟩
        cases k with
        | zero =>
          left
          have hm : m = m0 := by simpa using hk.symm
          rw [Nat.add_zero] at hiv
          rw [hiv, hm]
        | succ k =>
          right
          refine ⟨k, m, by simpa using hk, ?_⟩
          have harith : idx + 1 + k = idx + (k + 1) := by omega
          rw [harith]
          exact hiv

/-! ## Coordinates of scanned cells -/

lemma srcPoint_in_bounds (g : Grid) (k : Nat) (hw : g.width < 2 ^ 31)
    (hh : g.height < 2 ^ 31) (hk : k < g.width * g.height) :
    0 ≤ (srcPoint g.width k).x ∧ (srcPoint g.width k).x < (g.width : Int) ∧
      0 ≤ (srcPoint g.width k).y ∧ (srcPoint g.width k).y < (g.height : Int) := by
  have hw0 : 0 < g.width := by
    rcases Nat.eq_zero_or_pos g.width with h | h
    · rw [h] at hk; simp at hk
    · exact h
  have h1 : k % g.width < g.width := Nat.mod_lt _ hw0
  have h2 : k / g.width < g.height := by
    rw [Nat.div_lt_iff_lt_mul hw0]
    rw [mul_comm] at hk
    exact hk
  unfold srcPoint
  rw [i32cast_eq (lt_trans h1 hw), i32cast_eq (lt_trans h2 hh)]
  show (0 : Int) ≤ ((k % g.width : Nat) : Int) ∧
    ((k % g.width : Nat) : Int) < (g.width : Int) ∧
    (0 : Int) ≤ ((k / g.width : Nat) : Int) ∧ ((k / g.width : Nat) : Int) < (g.height : Int)
  refine ⟨by positivity, by exact_mod_cast h1, by positivity, by exact_mod_cast h2⟩

lemma read_srcPoint (g : Grid) (i : Nat) (hw : g.width < 2 ^ 31) (hh : g.height < 2 ^ 31)
    (hi : i < g.width * g.height) : g.read (srcPoint g.width i) = g.cellAt i := by
  unfold Grid.read Grid.get? Grid.cellAt
  rw [flatIdx_srcPoint g i hw hh hi]

/-! ## Claim C1 -/

/-- Claim C1 counterexample: in the one-column grid, the cell below the sand
particle at (0, 0) is in bounds and empty — the claimed fall-through rule
moves the particle down — yet `Sand`'s decision function returns (0, 0): the
`down_left.x < 0` test causes an early stay. -/
theorem claim1_counterexample :
    edgeGrid.read ⟨0, 0⟩ = some Material.sand ∧
    candAvailable edgeGrid ⟨0, 1⟩ = true ∧
    Sand.update edgeGrid ⟨0, 0⟩ = ⟨0, 0⟩ ∧
    sandClaimRule edgeGrid ⟨0, 0⟩ = ⟨0, 1⟩ ∧
    Sand.update edgeGrid ⟨0, 0⟩ ≠ sandClaimRule edgeGrid ⟨0, 0⟩ := by
  refine ⟨by decide, by decide, by decide, by decide, by decide⟩

/-- Claim C1 amended: `Sand`'s decision function evaluates the priority chain
down / down-left / down-right / stay against the pre-tick grid only when all
three candidate cells are in bounds; as soon as one candidate is out of
bounds (y+1 ≥ height, or x−1 < 0, or x+1 ≥ width) the particle stays where it
is, without considering the remaining candidates. -/
theorem claim1_amended (g : Grid) (hw : g.width < 2 ^ 31) (hh : g.height < 2 ^ 31) (p : Point) :
    Sand.update g p = sandGuardedRule g p := by
  simp only [Sand.update, sandGuardedRule, i32cast_eq hw, i32cast_eq hh]
  split_ifs <;> first | rfl | (exfalso; omega)

theorem claim1_amended_witness :
    edgeGrid.width < 2 ^ 31 ∧ Sand.update edgeGrid ⟨0, 0⟩ = sandGuardedRule edgeGrid ⟨0, 0⟩ :=
  ⟨by decide, claim1_amended edgeGrid (by decide) (by decide) ⟨0, 0⟩⟩

/-! ## Claim C2 -/

/-- Claim C2 counterexample: the point (2, 0) lies outside the 2 x 2 grid
(x = width), yet reading through `Index<Point>` is not rejected: it silently
returns the in-range cell (0, 1) (flat index 0·2 + 2 = 2), and writing
through `IndexMut<Point>` silently clears that same cell. -/
theorem claim2_counterexample :
    ((2 : Int) ≥ (aliasGrid.width : Int)) ∧
    aliasGrid.get? ⟨2, 0⟩ = some (some Material.sand) ∧
    aliasGrid.get? ⟨2, 0⟩ = aliasGrid.get? ⟨0, 1⟩ ∧
    aliasGrid.set? ⟨2, 0⟩ none
      = some { data := [none, none, none, none], width := 2, height := 2 } := by
  refine ⟨by decide, by decide, by decide, by decide⟩

/-- Claim C2 amended: an access with 0 ≤ x < width and 0 ≤ y < height reads
or writes exactly flat index y·width + x; an access outside those bounds is
not uniformly rejected — it fails (the `Vec` bounds check) exactly when the
computed flat index `y as usize * width + x as usize` falls outside the
backing vector, and otherwise silently aliases the in-range cell at that flat
index. -/
theorem claim2_amended (g : Grid) (hwf : g.data.length = g.width * g.height)
    (hw : g.width < 2 ^ 31) (hh : g.height < 2 ^ 31) :
    (∀ p : Point, 0 ≤ p.x → p.x < (g.width : Int) → 0 ≤ p.y → p.y < (g.height : Int) →
      g.flatIdx p = p.y.toNat * g.width + p.x.toNat ∧
      g.get? p = g.data.get? (p.y.toNat * g.width + p.x.toNat) ∧
      (g.get? p).isSome ∧
      ∀ c, g.set? p c = some { g with data := g.data.set (p.y.toNat * g.width + p.x.toNat) c }) ∧
    (∀ p : Point, g.get? p = none ↔ g.data.length ≤ g.flatIdx p) ∧
    (∀ p : Point, ∀ c, g.set? p c = none ↔ g.data.length ≤ g.flatIdx p) := by
  refine ⟨?_, ?_, ?_⟩
  · intro p hx0 hx1 hy0 hy1
    obtain ⟨hflat, hlt⟩ := flatIdx_point g p hw hh hx0 hx1 hy0 hy1
    have hlen : p.y.toNat * g.width + p.x.toNat < g.data.length := by rw [hwf]; exact hlt
    refine ⟨hflat, by rw [Grid.get?, hflat], ?_, ?_⟩
    · rw [Grid.get?, hflat, List.get?_eq_get hlen]
      rfl
    · intro c
      rw [Grid.set?, hflat, if_pos hlen]
  · intro p
    rw [Grid.get?, List.get?_eq_none]
  · intro p c
    rw [Grid.set?]
    by_cases h : g.flatIdx p < g.data.length
    · rw [if_pos h]
      simp
      omega
    · rw [if_neg h]
      simp
      omega

theorem claim2_amended_witness :
    aliasGrid.data.length = aliasGrid.width * aliasGrid.height ∧
    aliasGrid.get? ⟨1, 1⟩ = aliasGrid.data.get? 3 :=
  ⟨by decide,
    ((claim2_amended aliasGrid (by decide) (by decide) (by decide)).1 ⟨1, 1⟩ (by decide)
      (by decide) (by decide) (by decide)).2.1⟩

/-! ## Claim C5 -/

/-- Claim C5 counterexample: construction with width 0 is not rejected —
`Grid::new 0 5` happily produces a grid (with an empty cell vector). -/
theorem claim5_counterexample :
    Grid.new 0 5 = { data := [], width := 0, height := 5 } ∧ (Grid.new 0 5).data.length = 0 := by
  refine ⟨by decide, by decide⟩

/-- Claim C5 amended: `Grid::new` accepts any dimensions, including zero: it
returns a grid with exactly the requested dimensions and width·height cells,
all empty (a zero-area grid when either dimension is 0); no rejection
happens at construction time. -/
theorem claim5_amended (w h : Nat) :
    (Grid.new w h).width = w ∧ (Grid.new w h).height = h ∧
      (Grid.new w h).data.length = w * h ∧ (Grid.new w h).occCount = 0 := by
  refine ⟨rfl, rfl, by simp [Grid.new], ?_⟩
  rw [Grid.occCount, List.countP_eq_zero]
  intro c hc
  rw [List.eq_of_mem_replicate hc]
  simp

/-! ## Claim C7 -/

/-- Claim C7: for every grid of representable dimensions and every in-bounds
position, `Sand`'s decision function returns an in-bounds position — it never
proposes a destination outside the grid. -/
theorem claim7_decision_in_bounds (g : Grid) (p : Point) (hw : g.width < 2 ^ 31)
    (hh : g.height < 2 ^ 31) (hx0 : 0 ≤ p.x) (hx1 : p.x < (g.width : Int)) (hy0 : 0 ≤ p.y)
    (hy1 : p.y < (g.height : Int)) :
    0 ≤ (Sand.update g p).x ∧ (Sand.update g p).x < (g.width : Int) ∧
      0 ≤ (Sand.update g p).y ∧ (Sand.update g p).y < (g.height : Int) :=
  sand_update_in_bounds g p hw hh hx0 hx1 hy0 hy1

theorem claim7_witness :
    dropGrid.width < 2 ^ 31 ∧
      0 ≤ (Sand.update dropGrid ⟨1, 0⟩).x ∧
      (Sand.update dropGrid ⟨1, 0⟩).x < (dropGrid.width : Int) ∧
      0 ≤ (Sand.update dropGrid ⟨1, 0⟩).y ∧
      (Sand.update dropGrid ⟨1, 0⟩).y < (dropGrid.height : Int) :=
  ⟨by decide, claim7_decision_in_bounds dropGrid ⟨1, 0⟩ (by decide) (by decide) (by decide)
    (by decide) (by decide) (by decide)⟩

/-! ## Claim C9 -/

lemma gridWrites_of_all_empty (g : Grid) :
    ∀ (l : List (Option Material)) (idx : Nat), (∀ c ∈ l, c = none) →
      gridWrites g idx l = [] := by
  intro l
  induction l with
  | nil => intro idx _; rfl
  | cons c rest ih =>
    intro idx hall
    have hc : c = none := hall c (List.mem_cons_self c rest)
    subst hc
    exact ih (idx + 1) (fun x hx => hall x (List.mem_cons_of_mem none hx))

/-- Claim C9: a tick of a grid with zero occupied cells yields a grid with
zero occupied cells — no material is spontaneously created. -/
theorem claim9_no_spontaneous_creation (g : Grid) (hempty : g.occCount = 0) :
    (g.update).occCount = 0 := by
  have hall : ∀ c ∈ g.data, c = none := by
    rw [Grid.occCount, List.countP_eq_zero] at hempty
    intro c hc
    have := hempty c hc
    cases c with
    | none => rfl
    | some m => simp at this
  rw [update_eq]
  show (applyW (gridWrites g 0 g.data) (List.replicate (g.width * g.height) none)).countP _ = 0
  rw [gridWrites_of_all_empty g g.data 0 hall, applyW_nil, List.countP_eq_zero]
  intro c hc
  rw [List.eq_of_mem_replicate hc]
  simp

theorem claim9_witness :
    (Grid.new 2 3).occCount = 0 ∧ ((Grid.new 2 3).update).occCount = 0 :=
  ⟨by decide, claim9_no_spontaneous_creation (Grid.new 2 3) (by decide)⟩

/-! ## Further helpers -/

lemma material_update_eq (m : Material) (g : Grid) (p : Point) :
    m.update g p = Sand.update g p := by
  cases m
  rfl

lemma cellAt_eq_some (g : Grid) (i : Nat) (hi : i < g.data.length) :
    g.data.get? i = some (g.cellAt i) := by
  unfold Grid.cellAt
  rw [List.get?_eq_get hi]
  rfl

lemma gridWrites_mem0 (g : Grid) (iv : Nat × Option Material) :
    iv ∈ gridWrites g 0 g.data ↔
      ∃ k m, g.data.get? k = some (some m) ∧
        iv = (g.flatIdx (m.update g (srcPoint g.width k)), g.read (srcPoint g.width k)) := by
  rw [gridWrites_mem g g.data 0 iv]
  simp only [Nat.zero_add]

lemma read_eq_cellAt_flat (g : Grid) (q : Point) : g.read q = g.cellAt (g.flatIdx q) := rfl

lemma sand_update_bottom (g : Grid) (p : Point) (hh : g.height < 2 ^ 31)
    (hp : p.y + 1 ≥ (g.height : Int)) : Sand.update g p = p := by
  simp only [Sand.update, i32cast_eq hh]
  rw [if_pos hp]

lemma sand_update_falls (g : Grid) (p : Point) (hw : g.width < 2 ^ 31) (hh : g.height < 2 ^ 31)
    (h1 : ¬(p.y + 1 ≥ (g.height : Int))) (h2 : ¬(p.x - 1 < 0))
    (h3 : ¬(p.x + 1 ≥ (g.width : Int))) (hempty : g.read ⟨p.x, p.y + 1⟩ = none) :
    Sand.update g p = ⟨p.x, p.y + 1⟩ := by
  simp only [Sand.update, i32cast_eq hw, i32cast_eq hh]
  rw [if_neg h1, if_neg h2, if_neg h3, if_pos (by rw [hempty]; rfl)]

/-! ## Claim C8 -/

/-- Claim C8: a sand particle in the bottom row stays exactly where it is
after one tick: its decision is to stay, and no other particle can target its
(occupied) cell, so the successor holds sand at the same position. -/
theorem claim8_bottom_row_stays (g : Grid) (hwf : g.data.length = g.width * g.height)
    (hw : g.width < 2 ^ 31) (hh : g.height < 2 ^ 31) (x : Nat) (hx : x < g.width)
    (hy : 0 < g.height)
    (hcell : g.get? ⟨(x : Int), (g.height : Int) - 1⟩ = some (some Material.sand)) :
    (g.update).get? ⟨(x : Int), (g.height : Int) - 1⟩ = some (some Material.sand) := by
  have hx0 : (0 : Int) ≤ ((x : Nat) : Int) := Int.natCast_nonneg x
  have hx1 : ((x : Nat) : Int) < (g.width : Int) := by exact_mod_cast hx
  have hy0 : (0 : Int) ≤ (g.height : Int) - 1 := by omega
  have hy1 : (g.height : Int) - 1 < (g.height : Int) := by omega
  obtain ⟨hflat, hlt⟩ :=
    flatIdx_point g ⟨(x : Int), (g.height : Int) - 1⟩ hw hh hx0 hx1 hy0 hy1
  have htn : ((g.height : Int) - 1).toNat * g.width + ((x : Nat) : Int).toNat
      = (g.height - 1) * g.width + x := by
    have e1 : ((g.height : Int) - 1).toNat = g.height - 1 := by omega
    have e2 : ((x : Nat) : Int).toNat = x := by omega
    rw [e1, e2]
  rw [htn] at hflat hlt
  have hdata : g.data.get? ((g.height - 1) * g.width + x) = some (some Material.sand) := by
    rw [Grid.get?, hflat] at hcell
    exact hcell
  -- every write targeting the bottom cell carries sand, and one such write exists
  have hval : ∀ iv ∈ gridWrites g 0 g.data,
      iv.1 = (g.height - 1) * g.width + x → iv.2 = some Material.sand := by
    intro iv hmem hj
    obtain ⟨k, m, hk, hiv⟩ := (gridWrites_mem0 g iv).mp hmem
    obtain ⟨hklt, _⟩ := List.get?_eq_some.mp hk
    have hkwh : k < g.width * g.height := by rw [← hwf]; exact hklt
    have hdest : m.update g (srcPoint g.width k) = Sand.update g (srcPoint g.width k) :=
      material_update_eq m g (srcPoint g.width k)
    rcases sand_update_stay_or_empty g (srcPoint g.width k) with hstay | hempty
    · have hfst : iv.1 = k := by
        rw [hiv]
        show g.flatIdx (m.update g (srcPoint g.width k)) = k
        rw [hdest, hstay]
        exact flatIdx_srcPoint g k hw hh hkwh
      have hkj : k = (g.height - 1) * g.width + x := by rw [← hfst, hj]
      rw [hiv]
      show g.read (srcPoint g.width k) = some Material.sand
      rw [read_srcPoint g k hw hh hkwh, hkj]
      unfold Grid.cellAt
      rw [hdata]
      rfl
    · exfalso
      have hflatdest : g.flatIdx (Sand.update g (srcPoint g.width k))
          = (g.height - 1) * g.width + x := by
        rw [← hdest, ← hj, hiv]
      have : g.read (Sand.update g (srcPoint g.width k))
          = g.cellAt ((g.height - 1) * g.width + x) := by
        rw [read_eq_cellAt_flat, hflatdest]
      rw [this] at hempty
      unfold Grid.cellAt at hempty
      rw [hdata] at hempty
      simp at hempty
  have hex : ∃ iv ∈ gridWrites g 0 g.data, iv.1 = (g.height - 1) * g.width + x := by
    have hmod : ((g.height - 1) * g.width + x) % g.width = x := by
      rw [Nat.add_comm, Nat.add_mul_mod_self_right, Nat.mod_eq_of_lt hx]
    have hdiv : ((g.height - 1) * g.width + x) / g.width = g.height - 1 := by
      have hw0 : 0 < g.width := lt_of_le_of_lt (Nat.zero_le x) hx
      rw [Nat.add_comm, Nat.add_mul_div_right _ _ hw0, Nat.div_eq_of_lt hx, Nat.zero_add]
    have hsrc : Sand.update g (srcPoint g.width ((g.height - 1) * g.width + x))
        = srcPoint g.width ((g.height - 1) * g.width + x) := by
      apply sand_update_bottom g _ hh
      show (srcPoint g.width ((g.height - 1) * g.width + x)).y + 1 ≥ (g.height : Int)
      unfold srcPoint
      rw [hdiv]
      have hcast : i32cast (g.height - 1) = ((g.height - 1 : Nat) : Int) :=
        i32cast_eq (by omega)
      show i32cast (g.height - 1) + 1 ≥ (g.height : Int)
      rw [hcast]
      omega
    refine ⟨(g.flatIdx (Material.sand.update g (srcPoint g.width ((g.height - 1) * g.width + x))),
      g.read (srcPoint g.width ((g.height - 1) * g.width + x))), ?_, ?_⟩
    · exact (gridWrites_mem0 g _).mpr ⟨(g.height - 1) * g.width + x, Material.sand, hdata, rfl⟩
    · show g.flatIdx (Material.sand.update g (srcPoint g.width ((g.height - 1) * g.width + x)))
        = (g.height - 1) * g.width + x
      rw [material_update_eq, hsrc]
      exact flatIdx_srcPoint g _ hw hh hlt
  have hmaster := update_get? g ((g.height - 1) * g.width + x) hlt
  rw [lastVal_of_hits ((g.height - 1) * g.width + x) (some Material.sand) _ none hval hex]
    at hmaster
  rw [Grid.get?, flatIdx_width_congr (update_width g) ⟨(x : Int), (g.height : Int) - 1⟩, hflat]
  exact hmaster

theorem claim8_witness :
    oneCell.data.length = oneCell.width * oneCell.height ∧
      (oneCell.update).get? ⟨(0 : Int), (oneCell.height : Int) - 1⟩
        = some (some Material.sand) :=
  ⟨by decide, claim8_bottom_row_stays oneCell (by decide) (by decide) (by decide) 0 (by decide)
    (by decide) (by decide)⟩

/-! ## Claim C6 -/

/-- Claim C6: a fully settled grid — every occupied cell's below, below-left
and below-right neighbours each occupied or out of bounds — is a fixed point
of `update`: every particle stays, nothing moves onto an occupied cell, and
the successor equals the input (so repeated ticks keep producing it). -/
theorem claim6_settled_fixed_point (g : Grid) (hwf : g.data.length = g.width * g.height)
    (hw : g.width < 2 ^ 31) (hh : g.height < 2 ^ 31) (hs : g.settled) :
    g.update = g := by
  have hstay : ∀ k m, g.data.get? k = some (some m) →
      m.update g (srcPoint g.width k) = srcPoint g.width k := by
    intro k m hk
    obtain ⟨hklt, _⟩ := List.get?_eq_some.mp hk
    have hcell : (g.cellAt k).isSome := by
      unfold Grid.cellAt
      rw [hk]
      rfl
    obtain ⟨b1, b2, b3⟩ := hs k hklt hcell
    rw [material_update_eq]
    exact sand_update_of_blocked g _ hw hh b1 b2 b3
  have hfst : ∀ iv ∈ gridWrites g 0 g.data, ∃ k m, g.data.get? k = some (some m) ∧
      iv.1 = k ∧ iv.2 = g.cellAt k := by
    intro iv hmem
    obtain ⟨k, m, hk, hiv⟩ := (gridWrites_mem0 g iv).mp hmem
    obtain ⟨hklt, _⟩ := List.get?_eq_some.mp hk
    have hkwh : k < g.width * g.height := by rw [← hwf]; exact hklt
    refine ⟨k, m, hk, ?_, ?_⟩
    · rw [hiv]
      show g.flatIdx (m.update g (srcPoint g.width k)) = k
      rw [hstay k m hk]
      exact flatIdx_srcPoint g k hw hh hkwh
    · rw [hiv]
      show g.read (srcPoint g.width k) = g.cellAt k
      exact read_srcPoint g k hw hh hkwh
  have hdata : (g.update).data = g.data := by
    apply List.ext
    intro j
    by_cases hj : j < g.width * g.height
    · rw [update_get? g j hj]
      have hjlen : j < g.data.length := by rw [hwf]; exact hj
      by_cases hocc : ∃ m, g.data.get? j = some (some m)
      · obtain ⟨m, hm⟩ := hocc
        have hval : ∀ iv ∈ gridWrites g 0 g.data, iv.1 = j → iv.2 = g.cellAt j := by
          intro iv hmem hj1
          obtain ⟨k, m1, hk, hfst1, hsnd⟩ := hfst iv hmem
          rw [hsnd, hfst1.symm.trans hj1]
        have hex : ∃ iv ∈ gridWrites g 0 g.data, iv.1 = j := by
          refine ⟨(g.flatIdx (m.update g (srcPoint g.width j)), g.read (srcPoint g.width j)),
            (gridWrites_mem0 g _).mpr ⟨j, m, hm, rfl⟩, ?_⟩
          show g.flatIdx (m.update g (srcPoint g.width j)) = j
          rw [hstay j m hm]
          exact flatIdx_srcPoint g j hw hh hj
        rw [lastVal_of_hits j (g.cellAt j) _ none hval hex, cellAt_eq_some g j hjlen]
      · have hcnone : g.cellAt j = none := by
          unfold Grid.cellAt
          cases hc : g.data.get? j with
          | none => rfl
          | some c =>
            cases c with
            | none => rfl
            | some m => exact absurd ⟨m, hc⟩ hocc
        have hnohit : ∀ iv ∈ gridWrites g 0 g.data, iv.1 ≠ j := by
          intro iv hmem hj1
          obtain ⟨k, m1, hk, hfst1, _⟩ := hfst iv hmem
          rw [hfst1] at hj1
          rw [hj1] at hk
          exact absurd ⟨m1, hk⟩ hocc
        rw [lastVal_of_no_hit j _ none hnohit, cellAt_eq_some g j hjlen, hcnone]
    · have h1 : (g.update).data.get? j = none := by
        rw [List.get?_eq_none, update_data_length]
        omega
      have h2 : g.data.get? j = none := by
        rw [List.get?_eq_none, hwf]
        omega
      rw [h1, h2]
  have heta : g.update = (⟨(g.update).data, (g.update).width, (g.update).height⟩ : Grid) := rfl
  rw [heta, hdata, update_width, update_height]

theorem claim6_witness : oneCell.settled ∧ oneCell.update = oneCell :=
  ⟨by decide, claim6_settled_fixed_point oneCell (by decide) (by decide) (by decide) (by decide)⟩

/-! ## Claim C3 -/

/-- Claim C3 counterexample: `edgeGrid` holds a single sand particle at
(0, 0) with (0, 1) in bounds and empty, the exact situation of the claim with
x = 0; but after one tick the particle is still at (0, 0) and (0, 1) is still
empty — the claim's "no further precondition on x" fails. -/
theorem claim3_counterexample :
    edgeGrid.get? ⟨0, 0⟩ = some (some Material.sand) ∧
    edgeGrid.get? ⟨0, 1⟩ = some none ∧
    edgeGrid.occCount = 1 ∧
    (0 : Int) + 1 < (edgeGrid.height : Int) ∧
    (edgeGrid.update).get? ⟨0, 1⟩ = some none ∧
    (edgeGrid.update).get? ⟨0, 0⟩ = some (some Material.sand) := by
  refine ⟨by decide, by decide, by decide, by decide, by decide, by decide⟩

/-- Claim C3 amended: for a grid whose only occupant is a sand particle at
(x, y) with y+1 < height and additionally 1 ≤ x and x+1 < width (away from
both edge columns — at x = 0 or x = width−1 the particle stays because of the
early bounds returns), one tick moves the particle to (x, y+1) and leaves
(x, y) empty. -/
theorem claim3_amended (g : Grid) (hwf : g.data.length = g.width * g.height)
    (hw : g.width < 2 ^ 31) (hh : g.height < 2 ^ 31) (x y : Nat) (hx1 : 1 ≤ x)
    (hx2 : x + 1 < g.width) (hy : y + 1 < g.height)
    (hsingle : ∀ i < g.data.length,
      g.data.get? i = some (if i = y * g.width + x then some Material.sand else none)) :
    (g.update).get? ⟨(x : Int), (y : Int) + 1⟩ = some (some Material.sand) ∧
      (g.update).get? ⟨(x : Int), (y : Int)⟩ = some none := by
  have hw0 : 0 < g.width := by omega
  have hexp : (y + 1) * g.width = y * g.width + g.width := by ring
  have hmono : y * g.width ≤ (y + 1) * g.width := Nat.mul_le_mul_right _ (by omega)
  have hj1lt : (y + 1) * g.width + x < g.width * g.height := by
    calc (y + 1) * g.width + x < (y + 1) * g.width + g.width := by omega
    _ = (y + 2) * g.width := by ring
    _ ≤ g.height * g.width := Nat.mul_le_mul_right _ (by omega)
    _ = g.width * g.height := Nat.mul_comm _ _
  have hj0lt : y * g.width + x < g.width * g.height := by omega
  have hne : y * g.width + x ≠ (y + 1) * g.width + x := by omega
  have hdata0 : g.data.get? (y * g.width + x) = some (some Material.sand) := by
    have := hsingle (y * g.width + x) (by rw [hwf]; exact hj0lt)
    rw [if_pos rfl] at this
    exact this
  have hdata1 : g.data.get? ((y + 1) * g.width + x) = some none := by
    have := hsingle ((y + 1) * g.width + x) (by rw [hwf]; exact hj1lt)
    rw [if_neg (by omega)] at this
    exact this
  have hocc_only : ∀ k m, g.data.get? k = some (some m) → k = y * g.width + x := by
    intro k m hk
    obtain ⟨hklt, _⟩ := List.get?_eq_some.mp hk
    by_contra hne2
    have := hsingle k hklt
    rw [if_neg hne2] at this
    rw [this] at hk
    simp at hk
  have hsrc : srcPoint g.width (y * g.width + x) = ⟨(x : Int), (y : Int)⟩ := by
    have hmod : (y * g.width + x) % g.width = x := by
      rw [Nat.add_comm, Nat.add_mul_mod_self_right, Nat.mod_eq_of_lt (by omega)]
    have hdiv : (y * g.width + x) / g.width = y := by
      rw [Nat.add_comm, Nat.add_mul_div_right _ _ hw0, Nat.div_eq_of_lt (by omega),
        Nat.zero_add]
    unfold srcPoint
    rw [hmod, hdiv, i32cast_eq (by omega), i32cast_eq (by omega)]
  obtain ⟨hflatdown, _⟩ :=
    flatIdx_point g ⟨(x : Int), (y : Int) + 1⟩ hw hh
      (by show (0 : Int) ≤ ((x : Nat) : Int); omega)
      (by show ((x : Nat) : Int) < (g.width : Int); omega)
      (by show (0 : Int) ≤ ((y : Nat) : Int) + 1; omega)
      (by show ((y : Nat) : Int) + 1 < (g.height : Int); omega)
  have htn1 : (((y : Nat) : Int) + 1).toNat * g.width + ((x : Nat) : Int).toNat
      = (y + 1) * g.width + x := by
    have e1 : (((y : Nat) : Int) + 1).toNat = y + 1 := by omega
    have e2 : ((x : Nat) : Int).toNat = x := by omega
    rw [e1, e2]
  rw [htn1] at hflatdown
  obtain ⟨hflatself, _⟩ :=
    flatIdx_point g ⟨(x : Int), (y : Int)⟩ hw hh
      (by show (0 : Int) ≤ ((x : Nat) : Int); omega)
      (by show ((x : Nat) : Int) < (g.width : Int); omega)
      (by show (0 : Int) ≤ ((y : Nat) : Int); omega)
      (by show ((y : Nat) : Int) < (g.height : Int); omega)
  have htn0 : ((y : Nat) : Int).toNat * g.width + ((x : Nat) : Int).toNat
      = y * g.width + x := by
    have e1 : ((y : Nat) : Int).toNat = y := by omega
    have e2 : ((x : Nat) : Int).toNat = x := by omega
    rw [e1, e2]
  rw [htn0] at hflatself
  have hfall : Sand.update g ⟨(x : Int), (y : Int)⟩ = ⟨(x : Int), (y : Int) + 1⟩ := by
    apply sand_update_falls g _ hw hh
    · show ¬((y : Int) + 1 ≥ (g.height : Int))
      omega
    · show ¬((x : Int) - 1 < 0)
      omega
    · show ¬((x : Int) + 1 ≥ (g.width : Int))
      omega
    · show g.read ⟨(x : Int), (y : Int) + 1⟩ = none
      rw [read_eq_cellAt_flat, hflatdown]
      unfold Grid.cellAt
      rw [hdata1]
      rfl
  have hdest : ∀ k m, g.data.get? k = some (some m) →
      g.flatIdx (m.update g (srcPoint g.width k)) = (y + 1) * g.width + x := by
    intro k m hk
    rw [hocc_only k m hk] at *
    rw [material_update_eq, hsrc, hfall, hflatdown]
  have hval : ∀ iv ∈ gridWrites g 0 g.data,
      iv.1 = (y + 1) * g.width + x → iv.2 = some Material.sand := by
    intro iv hmem _
    obtain ⟨k, m, hk, hiv⟩ := (gridWrites_mem0 g iv).mp hmem
    have hkj : k = y * g.width + x := hocc_only k m hk
    rw [hiv]
    show g.read (srcPoint g.width k) = some Material.sand
    rw [hkj, read_srcPoint g _ hw hh hj0lt]
    unfold Grid.cellAt
    rw [hdata0]
    rfl
  have hex : ∃ iv ∈ gridWrites g 0 g.data, iv.1 = (y + 1) * g.width + x := by
    refine ⟨(g.flatIdx (Material.sand.update g (srcPoint g.width (y * g.width + x))),
      g.read (srcPoint g.width (y * g.width + x))),
      (gridWrites_mem0 g _).mpr ⟨y * g.width + x, Material.sand, hdata0, rfl⟩, ?_⟩
    exact hdest _ _ hdata0
  have hnohit : ∀ iv ∈ gridWrites g 0 g.data, iv.1 ≠ y * g.width + x := by
    intro iv hmem
    obtain ⟨k, m, hk, hiv⟩ := (gridWrites_mem0 g iv).mp hmem
    have : iv.1 = (y + 1) * g.width + x := by
      rw [hiv]
      exact hdest k m hk
    omega
  constructor
  · have hmaster := update_get? g ((y + 1) * g.width + x) hj1lt
    rw [lastVal_of_hits ((y + 1) * g.width + x) (some Material.sand) _ none hval hex]
      at hmaster
    rw [Grid.get?, flatIdx_width_congr (update_width g), hflatdown]
    exact hmaster
  · have hmaster := update_get? g (y * g.width + x) hj0lt
    rw [lastVal_of_no_hit (y * g.width + x) _ none hnohit] at hmaster
    rw [Grid.get?, flatIdx_width_congr (update_width g), hflatself]
    exact hmaster

theorem claim3_amended_witness :
    (∀ i < dropGrid.data.length,
      dropGrid.data.get? i
        = some (if i = 0 * dropGrid.width + 1 then some Material.sand else none)) ∧
    (dropGrid.update).get? ⟨(1 : Int), (0 : Int) + 1⟩ = some (some Material.sand) ∧
    (dropGrid.update).get? ⟨(1 : Int), (0 : Int)⟩ = some none := by
  refine ⟨by decide, ?_, ?_⟩
  · exact (claim3_amended dropGrid (by decide) (by decide) (by decide) 1 0 (by decide)
      (by decide) (by decide) (by decide)).1
  · exact (claim3_amended dropGrid (by decide) (by decide) (by decide) 1 0 (by decide)
      (by decide) (by decide) (by decide)).2

/-! ## Claim C4 -/

lemma updateLoop_eq_specLoop (g : Grid) (hwf : g.data.length = g.width * g.height)
    (hw : g.width < 2 ^ 31) (hh : g.height < 2 ^ 31) :
    ∀ (l : List (Option Material)) (idx : Nat) (acc : Grid),
      (∀ k, l.get? k = g.data.get? (idx + k)) →
      g.updateLoop idx l acc = g.updateSpecLoop idx l acc := by
  intro l
  induction l with
  | nil => intro idx acc _; rfl
  | cons c rest ih =>
    intro idx acc hrel
    have hidx : g.data.get? idx = some c := by
      have h0 := hrel 0
      rw [Nat.add_zero] at h0
      exact h0.symm
    have hrest : ∀ k, rest.get? k = g.data.get? (idx + 1 + k) := by
      intro k
      have hk := hrel (k + 1)
      have harith : idx + (k + 1) = idx + 1 + k := by omega
      rw [harith] at hk
      exact hk
    cases c with
    | none => exact ih (idx + 1) acc hrest
    | some m =>
      show g.updateLoop (idx + 1) rest
          (acc.write (m.update g (srcPoint g.width idx)) (g.read (srcPoint g.width idx)))
        = g.updateSpecLoop (idx + 1) rest
          (acc.write (m.update g (srcPoint g.width idx)) (some m))
      obtain ⟨hlt, _⟩ := List.get?_eq_some.mp hidx
      have hval : g.read (srcPoint g.width idx) = some m := by
        rw [read_srcPoint g idx hw hh (by rw [← hwf]; exact hlt)]
        unfold Grid.cellAt
        rw [hidx]
        rfl
      rw [hval]
      exact ih (idx + 1) _ hrest

/-- Claim C4: one tick is the two-phase algorithm of the specification — the
successor starts fully empty with the same dimensions, the pre-tick cells are
scanned in ascending flat order, each occupied cell's occupant is copied to
the destination its decision function picks from the immutable pre-tick grid
(`Grid.updateSpec` is that algorithm taken from the specification's words),
and the value of each successor cell is the value of the last write in scan
order targeting it (last-write-wins), empty if no write targets it. -/
theorem claim4_two_phase_tick (g : Grid) (hwf : g.data.length = g.width * g.height)
    (hw : g.width < 2 ^ 31) (hh : g.height < 2 ^ 31) :
    g.update = g.updateSpec ∧
      (g.update).data.length = g.width * g.height ∧
      ∀ j, j < g.width * g.height →
        (g.update).data.get? j = some (lastVal (gridWrites g 0 g.data) j none) := by
  refine ⟨?_, update_data_length g, fun j hj => update_get? g j hj⟩
  unfold Grid.update Grid.updateSpec
  exact updateLoop_eq_specLoop g hwf hw hh g.data 0 (Grid.new g.width g.height)
    (fun k => by rw [Nat.zero_add])

theorem claim4_witness :
    dropGrid.data.length = dropGrid.width * dropGrid.height ∧
      dropGrid.update = dropGrid.updateSpec :=
  ⟨by decide, (claim4_two_phase_tick dropGrid (by decide) (by decide) (by decide)).1⟩

/-! ## Claim C10 -/

lemma destOf_eq_some_iff (g : Grid) (k d : Nat) :
    g.destOf k = some d ↔ ∃ m, g.data.get? k = some (some m) ∧
      d = g.flatIdx (m.update g (srcPoint g.width k)) := by
  unfold Grid.destOf Grid.cellAt
  cases h : g.data.get? k with
  | none => simp
  | some c =>
    cases c with
    | none => simp
    | some m =>
      show (some (g.flatIdx (m.update g (srcPoint g.width k))) = some d) ↔ _
      constructor
      · intro hd
        exact ⟨m, rfl, (Option.some.inj hd).symm⟩
      · rintro ⟨m1, hm1, hd⟩
        have hmm : m = m1 := Option.some.inj (Option.some.inj hm1)
        rw [hd, hmm]

lemma gridWrites_values_isSome (g : Grid) (hwf : g.data.length = g.width * g.height)
    (hw : g.width < 2 ^ 31) (hh : g.height < 2 ^ 31) :
    ∀ iv ∈ gridWrites g 0 g.data, iv.2.isSome := by
  intro iv hmem
  obtain ⟨k, m, hk, hiv⟩ := (gridWrites_mem0 g iv).mp hmem
  obtain ⟨hklt, _⟩ := List.get?_eq_some.mp hk
  have hkwh : k < g.width * g.height := by rw [← hwf]; exact hklt
  rw [hiv]
  show (g.read (srcPoint g.width k)).isSome
  rw [read_srcPoint g k hw hh hkwh]
  unfold Grid.cellAt
  rw [hk]
  rfl

lemma gridWrites_fst_lt (g : Grid) (hwf : g.data.length = g.width * g.height)
    (hw : g.width < 2 ^ 31) (hh : g.height < 2 ^ 31) :
    ∀ iv ∈ gridWrites g 0 g.data, iv.1 < g.width * g.height := by
  intro iv hmem
  obtain ⟨k, m, hk, hiv⟩ := (gridWrites_mem0 g iv).mp hmem
  obtain ⟨hklt, _⟩ := List.get?_eq_some.mp hk
  have hkwh : k < g.width * g.height := by rw [← hwf]; exact hklt
  obtain ⟨hsx0, hsx1, hsy0, hsy1⟩ := srcPoint_in_bounds g k hw hh hkwh
  obtain ⟨hb0, hb1, hb2, hb3⟩ := sand_update_in_bounds g (srcPoint g.width k) hw hh
    hsx0 hsx1 hsy0 hsy1
  obtain ⟨hfl, hlt⟩ := flatIdx_point g (Sand.update g (srcPoint g.width k)) hw hh hb0 hb1 hb2 hb3
  rw [hiv]
  show g.flatIdx (m.update g (srcPoint g.width k)) < g.width * g.height
  rw [material_update_eq, hfl]
  exact hlt

lemma gridWrites_map_fst (g : Grid) :
    ∀ (l : List (Option Material)) (idx : Nat),
      (gridWrites g idx l).map Prod.fst
        = (List.range l.length).filterMap
            (fun k => ((l.get? k).getD none).map
              (fun m => g.flatIdx (m.update g (srcPoint g.width (idx + k))))) := by
  intro l
  induction l with
  | nil => intro idx; rfl
  | cons c rest ih =>
    intro idx
    have hfeq : ((fun k => (((c :: rest).get? k).getD none).map
          (fun m => g.flatIdx (m.update g (srcPoint g.width (idx + k))))) ∘ Nat.succ)
        = (fun k => ((rest.get? k).getD none).map
          (fun m => g.flatIdx (m.update g (srcPoint g.width (idx + 1 + k))))) := by
      funext k
      show (((c :: rest).get? (k + 1)).getD none).map _ = _
      rw [List.get?_cons_succ]
      have harith : idx + (k + 1) = idx + 1 + k := by omega
      rw [harith]
    rw [show (c :: rest).length = rest.length + 1 from rfl, List.range_succ_eq_map,
      List.filterMap_cons, List.filterMap_map, hfeq, ← ih (idx + 1)]
    cases c with
    | none => rfl
    | some m => rfl

lemma dests_eq (g : Grid) :
    (gridWrites g 0 g.data).map Prod.fst = (List.range g.data.length).filterMap g.destOf := by
  rw [gridWrites_map_fst g g.data 0]
  congr 1
  funext k
  rw [Nat.zero_add]
  rfl

lemma filterMap_eq_map_filter (f : Nat → Option Nat) :
    ∀ l : List Nat,
      l.filterMap f = (l.filter (fun a => (f a).isSome)).map (fun a => (f a).getD 0) := by
  intro l
  induction l with
  | nil => rfl
  | cons a t ih =>
    rw [List.filterMap_cons, List.filter_cons]
    cases hfa : f a with
    | none => simp [hfa, ih]
    | some b => simp [hfa, ih]

lemma length_filter_eq_dedup (ds : List Nat) (n : Nat) (q : Nat → Bool)
    (hq : ∀ j, q j = true ↔ j ∈ ds) (hds : ∀ d ∈ ds, d < n) :
    ((List.range n).filter q).length = ds.dedup.length := by
  have h1 : ((List.range n).filter q).Nodup := (List.nodup_range n).filter q
  have h2 : ((List.range n).filter q).toFinset = ds.toFinset := by
    apply Finset.ext
    intro a
    rw [List.mem_toFinset, List.mem_toFinset, List.mem_filter, List.mem_range]
    constructor
    · rintro ⟨_, hqa⟩
      exact (hq a).mp hqa
    · intro ha
      exact ⟨hds a ha, (hq a).mpr ha⟩
  rw [← List.toFinset_card_of_nodup h1, h2, List.card_toFinset]

lemma collision_iff_not_nodup (g : Grid) :
    g.collision ↔ ¬ ((gridWrites g 0 g.data).map Prod.fst).Nodup := by
  rw [dests_eq g, filterMap_eq_map_filter]
  rw [List.nodup_map_iff_inj_on ((List.nodup_range _).filter _)]
  constructor
  · rintro ⟨i, j, hne, d, hi, hj⟩ hinj
    have hikey : i ∈ (List.range g.data.length).filter (fun k => (g.destOf k).isSome) := by
      rw [List.mem_filter, List.mem_range]
      obtain ⟨m, hm, _⟩ := (destOf_eq_some_iff g i d).mp hi
      obtain ⟨hlt, _⟩ := List.get?_eq_some.mp hm
      exact ⟨hlt, by rw [hi]; rfl⟩
    have hjkey : j ∈ (List.range g.data.length).filter (fun k => (g.destOf k).isSome) := by
      rw [List.mem_filter, List.mem_range]
      obtain ⟨m, hm, _⟩ := (destOf_eq_some_iff g j d).mp hj
      obtain ⟨hlt, _⟩ := List.get?_eq_some.mp hm
      exact ⟨hlt, by rw [hj]; rfl⟩
    apply hne
    apply hinj i hikey j hjkey
    show (g.destOf i).getD 0 = (g.destOf j).getD 0
    rw [hi, hj]
  · intro hninj
    push_neg at hninj
    obtain ⟨x, hx, y, hy, hfeq, hne⟩ := hninj
    rw [List.mem_filter] at hx hy
    obtain ⟨dx, hdx⟩ := Option.isSome_iff_exists.mp hx.2
    obtain ⟨dy, hdy⟩ := Option.isSome_iff_exists.mp hy.2
    refine ⟨x, y, hne, dx, hdx, ?_⟩
    have hdd : dx = dy := by
      have h1 : (g.destOf x).getD 0 = dx := by rw [hdx]; rfl
      have h2 : (g.destOf y).getD 0 = dy := by rw [hdy]; rfl
      rw [h1, h2] at hfeq
      exact hfeq
    rw [hdy, hdd]

/-- Claim C10: one tick never increases the number of occupied cells, and it
strictly decreases that number exactly when two distinct occupied source
cells compute the same destination (colliding particles merge by
last-write-wins). -/
theorem claim10_mass_conservation (g : Grid) (hwf : g.data.length = g.width * g.height)
    (hw : g.width < 2 ^ 31) (hh : g.height < 2 ^ 31) :
    (g.update).occCount ≤ g.occCount ∧
      ((g.update).occCount < g.occCount ↔ g.collision) := by
  have hq : ∀ j, ((lastVal (gridWrites g 0 g.data) j none).isSome = true
      ↔ j ∈ (gridWrites g 0 g.data).map Prod.fst) := by
    intro j
    rw [lastVal_isSome_iff j _ none (gridWrites_values_isSome g hwf hw hh)]
    constructor
    · rintro (h | ⟨iv, hmem, hfst⟩)
      · simp at h
      · exact List.mem_map.mpr ⟨iv, hmem, hfst⟩
    · intro h
      obtain ⟨iv, hmem, hfst⟩ := List.mem_map.mp h
      exact Or.inr ⟨iv, hmem, hfst⟩
  have hbound : ∀ d ∈ (gridWrites g 0 g.data).map Prod.fst, d < g.width * g.height := by
    intro d hd
    obtain ⟨iv, hmem, hfst⟩ := List.mem_map.mp hd
    rw [← hfst]
    exact gridWrites_fst_lt g hwf hw hh iv hmem
  have hmapdata : (g.update).data = (List.range (g.width * g.height)).map
      (fun j => lastVal (gridWrites g 0 g.data) j none) := by
    apply List.ext
    intro j
    rw [List.get?_map]
    by_cases hj : j < g.width * g.height
    · rw [update_get? g j hj, List.get?_eq_getElem?, List.getElem?_range hj]
      rfl
    · have h1 : (g.update).data.get? j = none := by
        rw [List.get?_eq_none, update_data_length]
        omega
      have h2 : (List.range (g.width * g.height)).get? j = none := by
        rw [List.get?_eq_none, List.length_range]
        omega
      rw [h1, h2]
      rfl
  have hafter : (g.update).occCount
      = ((gridWrites g 0 g.data).map Prod.fst).dedup.length := by
    rw [Grid.occCount, hmapdata, List.countP_map, List.countP_eq_length_filter]
    exact length_filter_eq_dedup _ _ _ hq hbound
  have hbefore : g.occCount = ((gridWrites g 0 g.data).map Prod.fst).length := by
    rw [Grid.occCount, List.length_map, gridWrites_length g g.data 0]
  constructor
  · rw [hafter, hbefore]
    exact (List.dedup_sublist _).length_le
  · rw [hafter, hbefore, collision_iff_not_nodup g]
    constructor
    · intro hlt hnd
      rw [List.dedup_eq_self.mpr hnd] at hlt
      omega
    · intro hnnd
      rcases Nat.lt_or_ge ((gridWrites g 0 g.data).map Prod.fst).dedup.length
        ((gridWrites g 0 g.data).map Prod.fst).length with h | h
      · exact h
      · exfalso
        have heq : ((gridWrites g 0 g.data).map Prod.fst).dedup.length
            = ((gridWrites g 0 g.data).map Prod.fst).length :=
          Nat.le_antisymm ((List.dedup_sublist _).length_le) h
        have hde : ((gridWrites g 0 g.data).map Prod.fst).dedup
            = (gridWrites g 0 g.data).map Prod.fst :=
          (List.dedup_sublist _).eq_of_length heq
        exact hnnd (hde ▸ List.nodup_dedup ((gridWrites g 0 g.data).map Prod.fst))

theorem claim10_witness :
    collideGrid.data.length = collideGrid.width * collideGrid.height ∧
      (collideGrid.update).occCount ≤ collideGrid.occCount ∧
      (collideGrid.update).occCount = 2 ∧ collideGrid.occCount = 3 :=
  ⟨by decide, (claim10_mass_conservation collideGrid (by decide) (by decide) (by decide)).1,
    by decide, by decide⟩
